import Mathlib

/-!
Verification development for the TicTacToeOL server (src/main.py).

The definitions below are a shallow embedding of the source:
- `TicPieceState`, `GameState` mirror the two enums;
- `TicTacToe` with `place_piece`, `check_win`, `check_game_status`,
  `get_board`, `place_random_piece` mirrors class `TicTacToe`
  (randomness is made explicit through a `choice` parameter that selects
  the index into the list of empty cells);
- `GameSession`, `create_game`, `findGame`, `sweepGames`, `pyRemove`,
  `joinSession`, `gameStep`, `handleDisconnect` mirror the session
  registry (`game_instances`), the `/create` endpoint and the body of
  the `/game` websocket loop.  The registry is a list of session ids
  into a heap `Nat → GameSession`, mirroring Python's list of object
  references; `pyRemove` models `list.remove` (first occurrence,
  ValueError when absent).  Timestamps are rationals, strings are
  `List Char`.
-/

/-- Cell states, mirroring enum `TicPieceState` in src/main.py. -/
inductive TicPieceState
  | Check
  | Circle
  | Empty
deriving DecidableEq

/-- Enum value string of a cell state (`'Check'`, `'Circle'`, `'-'`). -/
def TicPieceState.value : TicPieceState → List Char
  | .Check => ['C', 'h', 'e', 'c', 'k']
  | .Circle => ['C', 'i', 'r', 'c', 'l', 'e']
  | .Empty => ['-']

/-- Game status values, mirroring enum `GameState` in src/main.py. -/
inductive GameState
  | Circle
  | Check
  | Draw
  | Playing
deriving DecidableEq

/-- Enum value string of a game status. -/
def GameState.value : GameState → List Char
  | .Circle => ['C', 'i', 'r', 'c', 'l', 'e']
  | .Check => ['C', 'h', 'e', 'c', 'k']
  | .Draw => ['D', 'r', 'a', 'w']
  | .Playing => ['P', 'l', 'a', 'y', 'i', 'n', 'g']

/-- Board engine state: class `TicTacToe` holds `size` and the grid. -/
structure TicTacToe where
  size : Nat
  board : List (List TicPieceState)
deriving DecidableEq

/-- The fresh n×n all-Empty grid built by the constructor. -/
def emptyGrid (n : Nat) : List (List TicPieceState) :=
  List.replicate n (List.replicate n TicPieceState.Empty)

/-- Message of the MaxSizeException raised by the constructor. -/
def sizeErrorMsg : List Char :=
  "Invalid board size. Size must be between 3 and 25.".data

/-- Constructor `TicTacToe.__init__`: raises MaxSizeException unless 3 ≤ size ≤ 25. -/
def TicTacToe.init (size : Int) : Except (List Char) TicTacToe :=
  if size < 3 ∨ size > 25 then .error sizeErrorMsg
  else .ok ⟨size.toNat, emptyGrid size.toNat⟩

/-- Cell read `self.board[x][y]` (only used at in-range indices by the source). -/
def TicTacToe.getCell (t : TicTacToe) (x y : Nat) : TicPieceState :=
  (t.board.getD x []).getD y TicPieceState.Empty

/-- Cell write `self.board[x][y] = p`. -/
def TicTacToe.setCell (t : TicTacToe) (x y : Nat) (p : TicPieceState) : TicTacToe :=
  ⟨t.size, t.board.set x ((t.board.getD x []).set y p)⟩

/-- Method `is_coordinate_valid`: in-range and the target cell is Empty. -/
def TicTacToe.is_coordinate_valid (t : TicTacToe) (x y : Int) : Bool :=
  decide (0 ≤ x ∧ x < (t.size : Int) ∧ 0 ≤ y ∧ y < (t.size : Int)
    ∧ t.getCell x.toNat y.toNat = TicPieceState.Empty)

/-- Method `place_piece`: returns the new board state and the success flag. -/
def TicTacToe.place_piece (t : TicTacToe) (x y : Int) (piece : TicPieceState) :
    TicTacToe × Bool :=
  if t.is_coordinate_valid x y then (t.setCell x.toNat y.toNat piece, true)
  else (t, false)

/-- Method `check_win`: some full row, some full column, or a full diagonal of `piece`. -/
def TicTacToe.check_win (t : TicTacToe) (piece : TicPieceState) : Bool :=
  ((List.range t.size).any fun i =>
      ((List.range t.size).all fun j => t.getCell i j == piece)
        || ((List.range t.size).all fun j => t.getCell j i == piece))
    || ((List.range t.size).all fun i => t.getCell i i == piece)
    || ((List.range t.size).all fun i => t.getCell i (t.size - i - 1) == piece)

/-- One iteration of the row loop in `check_game_status`: the first of
Circle, Check whose pieces fill the whole row, if any. -/
def rowVerdict (row : List TicPieceState) : Option GameState :=
  if row.all fun c => c == TicPieceState.Circle then some GameState.Circle
  else if row.all fun c => c == TicPieceState.Check then some GameState.Check
  else none

/-- One iteration of the column loop in `check_game_status`. -/
def TicTacToe.colVerdict (t : TicTacToe) (col : Nat) : Option GameState :=
  if t.board.all fun row => row.getD col TicPieceState.Empty == TicPieceState.Circle then
    some GameState.Circle
  else if t.board.all fun row => row.getD col TicPieceState.Empty == TicPieceState.Check then
    some GameState.Check
  else none

/-- The final draw test of `check_game_status`: no Empty cell anywhere. -/
def TicTacToe.boardFullCheck (t : TicTacToe) : Bool :=
  t.board.all fun row => row.all fun cell => !(cell == TicPieceState.Empty)

/-- Method `check_game_status`: rows, then columns, then `check_win` for
Circle and Check, then the draw test, else Playing. -/
def TicTacToe.check_game_status (t : TicTacToe) : GameState :=
  match t.board.findSome? rowVerdict with
  | some g => g
  | none =>
    match (List.range t.size).findSome? t.colVerdict with
    | some g => g
    | none =>
      if t.check_win TicPieceState.Circle then GameState.Circle
      else if t.check_win TicPieceState.Check then GameState.Check
      else if t.boardFullCheck then GameState.Draw
      else GameState.Playing

/-- Python's `", ".join` over already-serialized items. -/
def joinComma : List (List Char) → List Char
  | [] => []
  | [s] => s
  | s :: rest => s ++ (',' :: ' ' :: joinComma rest)

/-- JSON encoding of one cell value (a quoted string; the three possible
values contain no characters that need escaping). -/
def dumpCell (c : TicPieceState) : List Char := '"' :: (c.value ++ ['"'])

/-- JSON encoding of one row: `json.dumps` of a list of strings. -/
def dumpRow (row : List TicPieceState) : List Char :=
  '[' :: (joinComma (row.map dumpCell) ++ [']'])

/-- JSON encoding of the whole grid, as produced by
`json.dumps([[cell.value for cell in row] for row in self.board])`. -/
def dumpBoard (b : List (List TicPieceState)) : List Char :=
  '[' :: (joinComma (b.map dumpRow) ++ [']'])

/-- Method `get_board`: the serialized snapshot of the grid. -/
def TicTacToe.get_board (t : TicTacToe) : List Char := dumpBoard t.board

/-- The list comprehension of empty cells in `place_random_piece`. -/
def TicTacToe.empty_cells (t : TicTacToe) : List (Nat × Nat) :=
  (List.range t.size).flatMap fun i =>
    (List.range t.size).filterMap fun j =>
      if t.getCell i j == TicPieceState.Empty then some (i, j) else none

/-- Method `place_random_piece`: `random.choice` over the empty cells is
made explicit by the `choice` parameter selecting an index modulo the
number of empty cells; returns `(t, false)` when no empty cell remains. -/
def TicTacToe.place_random_piece (t : TicTacToe) (choice : Nat) (piece : TicPieceState) :
    TicTacToe × Bool :=
  match t.empty_cells.get? (choice % t.empty_cells.length) with
  | some (x, y) => (t.setCell x y piece, true)
  | none => (t, false)

/-- Python's `str.replace("Circle", "O")`: left-to-right, non-overlapping. -/
def replaceCircleO : List Char → List Char
  | 'C' :: 'i' :: 'r' :: 'c' :: 'l' :: 'e' :: t => 'O' :: replaceCircleO t
  | c :: t => c :: replaceCircleO t
  | [] => []

/-- Python's `str.replace("Check", "X")`: left-to-right, non-overlapping. -/
def replaceCheckX : List Char → List Char
  | 'C' :: 'h' :: 'e' :: 'c' :: 'k' :: t => 'X' :: replaceCheckX t
  | c :: t => c :: replaceCheckX t
  | [] => []

/-- Display token of a cell after both textual substitutions. -/
def displayToken : TicPieceState → List Char
  | .Circle => ['O']
  | .Check => ['X']
  | .Empty => ['-']

/-- Cell encoding after the first substitution (Circle → O) only. -/
def dumpCellMid (c : TicPieceState) : List Char :=
  match c with
  | .Circle => ['"', 'O', '"']
  | c => dumpCell c

/-- Row encoding after the first substitution only. -/
def dumpRowMid (row : List TicPieceState) : List Char :=
  '[' :: (joinComma (row.map dumpCellMid) ++ [']'])

/-- Board encoding after the first substitution only. -/
def dumpBoardMid (b : List (List TicPieceState)) : List Char :=
  '[' :: (joinComma (b.map dumpRowMid) ++ [']'])

/-- Cell encoding with both display substitutions applied. -/
def dumpCellDisplay (c : TicPieceState) : List Char := '"' :: (displayToken c ++ ['"'])

/-- Row encoding with both display substitutions applied. -/
def dumpRowDisplay (row : List TicPieceState) : List Char :=
  '[' :: (joinComma (row.map dumpCellDisplay) ++ [']'])

/-- Board encoding with both display substitutions applied: the JSON
2-D array of per-cell display tokens `O` / `X` / `-`. -/
def dumpBoardDisplay (b : List (List TicPieceState)) : List Char :=
  '[' :: (joinComma (b.map dumpRowDisplay) ++ [']'])

/-- Decoder for one serialized cell token. -/
def parseCell : List Char → Option (TicPieceState × List Char)
  | '"' :: 'C' :: 'h' :: 'e' :: 'c' :: 'k' :: '"' :: r => some (TicPieceState.Check, r)
  | '"' :: 'C' :: 'i' :: 'r' :: 'c' :: 'l' :: 'e' :: '"' :: r => some (TicPieceState.Circle, r)
  | '"' :: '-' :: '"' :: r => some (TicPieceState.Empty, r)
  | _ => none

/-- Decoder for a comma-separated cell sequence (fuel-bounded). -/
def parseCells : Nat → List Char → Option (List TicPieceState × List Char)
  | 0, _ => none
  | fuel + 1, s =>
    match parseCell s with
    | none => none
    | some (c, r) =>
      match r with
      | ',' :: ' ' :: r2 =>
        match parseCells fuel r2 with
        | none => none
        | some (cs, r3) => some (c :: cs, r3)
      | r1 => some ([c], r1)

/-- Decoder for one serialized row. -/
def parseRow (s : List Char) : Option (List TicPieceState × List Char) :=
  match s with
  | '[' :: r =>
    match parseCells (r.length + 1) r with
    | some (cs, ']' :: r2) => some (cs, r2)
    | _ => none
  | _ => none

/-- Decoder for a comma-separated row sequence (fuel-bounded). -/
def parseRows : Nat → List Char → Option (List (List TicPieceState) × List Char)
  | 0, _ => none
  | fuel + 1, s =>
    match parseRow s with
    | none => none
    | some (row, r) =>
      match r with
      | ',' :: ' ' :: r2 =>
        match parseRows fuel r2 with
        | none => none
        | some (rows, r3) => some (row :: rows, r3)
      | r1 => some ([row], r1)

/-- Decoder for a serialized board snapshot, inverse to `dumpBoard`. -/
def decodeBoard (s : List Char) : Option (List (List TicPieceState)) :=
  match s with
  | '[' :: r =>
    match parseRows (r.length + 1) r with
    | some (rows, [']']) => some rows
    | _ => none
  | _ => none

/-- One board mutation of the engine: a `place_piece` attempt or a
`place_random_piece` attempt (with its randomness choice explicit). -/
inductive BoardOp
  | place (x y : Int) (piece : TicPieceState)
  | placeRandom (choice : Nat) (piece : TicPieceState)

/-- Apply one board operation, keeping only the resulting state. -/
def TicTacToe.applyOp (t : TicTacToe) : BoardOp → TicTacToe
  | .place x y p => (t.place_piece x y p).1
  | .placeRandom c p => (t.place_random_piece c p).1

/-- Apply a sequence of board operations in order. -/
def TicTacToe.applyOps (t : TicTacToe) : List BoardOp → TicTacToe
  | [] => t
  | op :: rest => (t.applyOp op).applyOps rest

/-- Well-formedness of a board value: the grid is size × size.  True of
every board the constructor produces and preserved by all operations. -/
def TicTacToe.WF (t : TicTacToe) : Prop :=
  t.board.length = t.size ∧ ∀ row ∈ t.board, row.length = t.size

instance (t : TicTacToe) : Decidable t.WF := by
  unfold TicTacToe.WF
  infer_instance

/-- Row `i` is entirely `p`. -/
def TicTacToe.rowFull (t : TicTacToe) (i : Nat) (p : TicPieceState) : Prop :=
  ∀ j < t.size, t.getCell i j = p

/-- Column `j` is entirely `p`. -/
def TicTacToe.colFull (t : TicTacToe) (j : Nat) (p : TicPieceState) : Prop :=
  ∀ i < t.size, t.getCell i j = p

/-- Some full row, some full column, the main diagonal or the
anti-diagonal consists entirely of mark `p`. -/
def TicTacToe.hasLine (t : TicTacToe) (p : TicPieceState) : Prop :=
  (∃ i < t.size, t.rowFull i p) ∨ (∃ j < t.size, t.colFull j p)
    ∨ (∀ i < t.size, t.getCell i i = p)
    ∨ (∀ i < t.size, t.getCell i (t.size - i - 1) = p)

/-- No cell of the board is Empty. -/
def TicTacToe.Full (t : TicTacToe) : Prop :=
  ∀ i < t.size, ∀ j < t.size, t.getCell i j ≠ TicPieceState.Empty

instance (t : TicTacToe) (i : Nat) (p : TicPieceState) : Decidable (t.rowFull i p) := by
  unfold TicTacToe.rowFull
  infer_instance

instance (t : TicTacToe) (j : Nat) (p : TicPieceState) : Decidable (t.colFull j p) := by
  unfold TicTacToe.colFull
  infer_instance

instance (t : TicTacToe) (p : TicPieceState) : Decidable (t.hasLine p) := by
  unfold TicTacToe.hasLine
  infer_instance

instance (t : TicTacToe) : Decidable t.Full := by
  unfold TicTacToe.Full
  infer_instance

/-- Class `GameSession`: name, connected players (as connection ids),
board, creation timestamp (`time.time()` at construction). -/
structure GameSession where
  name : List Char
  players : List Nat
  board : TicTacToe
  time : Rat
deriving DecidableEq

/-- One outbound `ServerResponse`, at the level of its `op` and `data`. -/
structure Msg where
  op : Nat
  data : List Char
deriving DecidableEq

/-- Result of one iteration of the websocket loop body: the session heap
and registry afterwards, the messages sent (connection id, message) in
order, whether `game_instances.remove` raised ValueError, whether the
loop `break`s, and the mark passed to `place_random_piece` if the
automated opponent was invoked. -/
structure StepResult where
  heap : Nat → GameSession
  registry : List Nat
  sent : List (Nat × Msg)
  removeError : Bool
  breaks : Bool
  aiInvoked : Option TicPieceState

/-- Inbound move message, mirroring the pydantic `Position` model. -/
structure Position where
  x : Int
  y : Int
  type : TicPieceState

/-- Name resolution of `/create`: `if not name` (absent or empty) a
generated identifier is used. -/
def resolveName (genName : List Char) : Option (List Char) → List Char
  | none => genName
  | some s => if s = [] then genName else s

/-- Update the session heap at one id (object mutation through a reference). -/
def heapSet (heap : Nat → GameSession) (i : Nat) (s : GameSession) :
    Nat → GameSession :=
  fun j => if j = i then s else heap j

/-- Endpoint `/create`: builds a `TicTacToe` (which validates the size)
and appends a new `GameSession` to the registry; on MaxSizeException the
heap and registry are returned unchanged and the error is surfaced.
`nid` is the fresh object id, `genName` the generated uuid string. -/
def create_game (heap : Nat → GameSession) (registry : List Nat) (nid : Nat) (now : Rat)
    (genName : List Char) (size : Int) (name : Option (List Char)) :
    (Nat → GameSession) × List Nat × Except (List Char) (List Char) :=
  let n := resolveName genName name
  match TicTacToe.init size with
  | .error e => (heap, registry, .error e)
  | .ok b => (heapSet heap nid ⟨n, [], b, now⟩, registry ++ [nid], .ok n)

/-- Session lookup `next((game for game in game_instances if game.name == name), None)`. -/
def findGame (heap : Nat → GameSession) (registry : List Nat) (name : List Char) :
    Option Nat :=
  registry.find? fun i => (heap i).name == name

/-- The sweep `game_instances[:] = [g for g in game_instances if now - g.time < 600]`. -/
def sweepGames (heap : Nat → GameSession) (now : Rat) (registry : List Nat) : List Nat :=
  registry.filter fun i => decide (now - (heap i).time < 600)

/-- Python `list.remove`: deletes the first occurrence, raises
ValueError (modelled as `.error ()`) when the element is absent. -/
def pyRemove : List Nat → Nat → Except Unit (List Nat)
  | [], _ => .error ()
  | a :: t, x => if a = x then .ok t else (pyRemove t x).map fun r => a :: r

/-- The Joining phase of the websocket handler: look the session up by
name (closing the connection, `none`, when not found), append the
connection to its players and emit the initial op-0 state message,
whose data is the raw `get_board()` snapshot. -/
def joinSession (heap : Nat → GameSession) (registry : List Nat) (name : List Char)
    (conn : Nat) : Option ((Nat → GameSession) × Nat × Msg) :=
  match findGame heap registry name with
  | none => none
  | some sid =>
    let s0 := heap sid
    let s1 : GameSession := ⟨s0.name, s0.players ++ [conn], s0.board, s0.time⟩
    some (heapSet heap sid s1, sid, ⟨0, s0.board.get_board⟩)

/-- Board effect of one loop iteration (lines 152-158 of src/main.py):
the human placement attempt, then, in ai mode, the automated opponent's
random placement with Circle when the inbound mark was Check and with
Check otherwise. -/
def stepBoard (ai : Bool) (choice : Nat) (board : TicTacToe) (pos : Position) :
    TicTacToe :=
  let b1 := (board.place_piece pos.x pos.y pos.type).1
  if ai then
    (if pos.type == TicPieceState.Check then
      (b1.place_random_piece choice TicPieceState.Circle).1
     else (b1.place_random_piece choice TicPieceState.Check).1)
  else b1

/-- One iteration of the Active loop (lines 149-175 of src/main.py):
attempt the human placement, optionally invoke the automated opponent,
broadcast the substituted board, then either (terminal status) send the
op-1 message to all players, remove the session from the registry and
break, or (still Playing) sweep the registry and continue. -/
def gameStep (ai : Bool) (choice : Nat) (now : Rat) (heap : Nat → GameSession)
    (registry : List Nat) (sid : Nat) (pos : Position) : StepResult :=
  let s0 := heap sid
  let aiCall : Option TicPieceState :=
    if ai then
      (if pos.type == TicPieceState.Check then some TicPieceState.Circle
       else some TicPieceState.Check)
    else none
  let b2 := stepBoard ai choice s0.board pos
  let s1 : GameSession := ⟨s0.name, s0.players, b2, s0.time⟩
  let heap1 := heapSet heap sid s1
  let data0 := replaceCheckX (replaceCircleO b2.get_board)
  let sent0 := s1.players.map fun p => (p, (⟨0, data0⟩ : Msg))
  let status := b2.check_game_status
  if status = GameState.Playing then
    ⟨heap1, sweepGames heap1 now registry, sent0, false, false, aiCall⟩
  else
    let sent1 := s1.players.map fun p => (p, (⟨1, status.value⟩ : Msg))
    match pyRemove registry sid with
    | .ok reg2 => ⟨heap1, reg2, sent0 ++ sent1, false, true, aiCall⟩
    | .error _ => ⟨heap1, registry, sent0 ++ sent1, true, true, aiCall⟩

/-- The WebSocketDisconnect handler (lines 177-180): remove this
connection from the session's players, and when the player list became
empty remove the session from the registry; either `list.remove` raises
ValueError when its target is absent. -/
def handleDisconnect (heap : Nat → GameSession) (registry : List Nat) (sid : Nat)
    (conn : Nat) : Except Unit ((Nat → GameSession) × List Nat) :=
  match pyRemove (heap sid).players conn with
  | .error _ => .error ()
  | .ok ps =>
    let s1 : GameSession := ⟨(heap sid).name, ps, (heap sid).board, (heap sid).time⟩
    if ps = [] then
      match pyRemove registry sid with
      | .error _ => .error ()
      | .ok reg2 => .ok (heapSet heap sid s1, reg2)
    else .ok (heapSet heap sid s1, registry)

/-- Per-connection loop status of the protocol state machine. -/
inductive ConnStatus
  | Active
  | Terminated
deriving DecidableEq

/-- Effect of one processed message on the per-connection loop statuses:
only the handling connection's loop can stop (`break` exits only the
coroutine that executed it); every other connection keeps its status. -/
def stepStatuses (statuses : Nat → ConnStatus) (conn : Nat) (r : StepResult) :
    Nat → ConnStatus :=
  fun c =>
    if c = conn then (if r.breaks then ConnStatus.Terminated else ConnStatus.Active)
    else statuses c

/-- A 3×3 board with a Check at the origin, used as concrete input. -/
def exBoardCheck : TicTacToe :=
  ⟨3, [[TicPieceState.Check, TicPieceState.Empty, TicPieceState.Empty],
       [TicPieceState.Empty, TicPieceState.Empty, TicPieceState.Empty],
       [TicPieceState.Empty, TicPieceState.Empty, TicPieceState.Empty]]⟩

/-- A 3×3 board holding a full Check row 0 and a full Circle row 2. -/
def exBoardTwoLines : TicTacToe :=
  ⟨3, [[TicPieceState.Check, TicPieceState.Check, TicPieceState.Check],
       [TicPieceState.Empty, TicPieceState.Empty, TicPieceState.Empty],
       [TicPieceState.Circle, TicPieceState.Circle, TicPieceState.Circle]]⟩

/-- A 3×3 board where Check is one move away from winning row 0. -/
def exBoardNearWin : TicTacToe :=
  ⟨3, [[TicPieceState.Check, TicPieceState.Check, TicPieceState.Empty],
       [TicPieceState.Circle, TicPieceState.Circle, TicPieceState.Empty],
       [TicPieceState.Empty, TicPieceState.Empty, TicPieceState.Empty]]⟩

/-- A fresh 3×3 board. -/
def exBoardFresh : TicTacToe := ⟨3, emptyGrid 3⟩

/-- Concrete session over the near-win board with two participants. -/
def exSessNearWin : GameSession := ⟨['g'], [0, 1], exBoardNearWin, 0⟩

/-- Concrete session over the single-Check board with no participants. -/
def exSessCheck : GameSession := ⟨['g'], [], exBoardCheck, 0⟩

/-- Concrete session over the fresh board with one participant. -/
def exSessFresh : GameSession := ⟨['h'], [0], exBoardFresh, 0⟩

/-- The all-Empty session heap used to instantiate heap arguments. -/
def exHeapFresh : Nat → GameSession := fun _ => exSessFresh

theorem getD_set_ne {α : Type} (l : List α) (i j : Nat) (a d : α) (h : i ≠ j) :
    (l.set i a).getD j d = l.getD j d := by
  simp [List.getD_eq_getElem?_getD, List.getElem?_set_ne h]

theorem getD_set_self {α : Type} (l : List α) (i : Nat) (a d : α) (h : i < l.length) :
    (l.set i a).getD i d = a := by
  simp [List.getD_eq_getElem?_getD, List.getElem?_set_self, h]

theorem getD_eq_getElem {α : Type} (l : List α) (i : Nat) (d : α) (h : i < l.length) :
    l.getD i d = l[i] := by
  simp [List.getD_eq_getElem?_getD, List.getElem?_eq_getElem h]

theorem getD_mem {α : Type} (l : List α) (i : Nat) (d : α) (h : i < l.length) :
    l.getD i d ∈ l := by
  rw [getD_eq_getElem l i d h]
  exact List.getElem_mem h

theorem forall_mem_iff_getD {α : Type} (l : List α) (P : α → Prop) (d : α) :
    (∀ c ∈ l, P c) ↔ ∀ j < l.length, P (l.getD j d) := by
  constructor
  · intro h j hj
    exact h _ (getD_mem l j d hj)
  · intro h c hc
    obtain ⟨j, hj, rfl⟩ := List.mem_iff_getElem.mp hc
    have := h j hj
    rwa [getD_eq_getElem l j d hj] at this

theorem exists_mem_iff_getD {α : Type} (l : List α) (P : α → Prop) (d : α) :
    (∃ c ∈ l, P c) ↔ ∃ j < l.length, P (l.getD j d) := by
  constructor
  · intro ⟨c, hc, hP⟩
    obtain ⟨j, hj, rfl⟩ := List.mem_iff_getElem.mp hc
    exact ⟨j, hj, by rwa [getD_eq_getElem l j d hj]⟩
  · intro ⟨j, hj, hP⟩
    exact ⟨_, getD_mem l j d hj, hP⟩

theorem getCell_setCell_ne (t : TicTacToe) (x y i j : Nat) (p : TicPieceState)
    (h : ¬(i = x ∧ j = y)) : (t.setCell x y p).getCell i j = t.getCell i j := by
  unfold TicTacToe.setCell TicTacToe.getCell
  by_cases hi : i = x
  · subst hi
    have hj : j ≠ y := fun hj => h ⟨rfl, hj⟩
    by_cases hx : i < t.board.length
    · rw [getD_set_self _ _ _ _ hx]
      exact getD_set_ne _ _ _ _ _ (fun hy => hj hy.symm)
    · rw [List.set_eq_of_length_le (le_of_not_lt hx)]
  · rw [getD_set_ne _ _ _ _ _ (fun hx => hi hx.symm)]

theorem getCell_setCell_self (t : TicTacToe) (x y : Nat) (p : TicPieceState)
    (hx : x < t.board.length) (hy : y < (t.board.getD x []).length) :
    (t.setCell x y p).getCell x y = p := by
  unfold TicTacToe.setCell TicTacToe.getCell
  rw [getD_set_self _ _ _ _ hx, getD_set_self _ _ _ _ hy]

theorem setCell_size (t : TicTacToe) (x y : Nat) (p : TicPieceState) :
    (t.setCell x y p).size = t.size := rfl

theorem setCell_WF (t : TicTacToe) (x y : Nat) (p : TicPieceState) (h : t.WF) :
    (t.setCell x y p).WF := by
  obtain ⟨h1, h2⟩ := h
  unfold TicTacToe.setCell TicTacToe.WF
  by_cases hx : x < t.board.length
  · refine ⟨by simpa using h1, ?_⟩
    intro row hrow
    rcases List.mem_or_eq_of_mem_set hrow with hmem | rfl
    · exact h2 _ hmem
    · rw [List.length_set]
      exact h2 _ (getD_mem _ _ _ hx)
  · rw [List.set_eq_of_length_le (le_of_not_lt hx)]
    exact ⟨h1, h2⟩

theorem is_coordinate_valid_iff (t : TicTacToe) (x y : Int) :
    t.is_coordinate_valid x y = true ↔
      (0 ≤ x ∧ x < (t.size : Int) ∧ 0 ≤ y ∧ y < (t.size : Int)
        ∧ t.getCell x.toNat y.toNat = TicPieceState.Empty) := by
  simp [TicTacToe.is_coordinate_valid]

theorem place_piece_valid (t : TicTacToe) (x y : Int) (piece : TicPieceState)
    (h : t.is_coordinate_valid x y = true) :
    t.place_piece x y piece = (t.setCell x.toNat y.toNat piece, true) := by
  simp [TicTacToe.place_piece, h]

theorem place_piece_invalid (t : TicTacToe) (x y : Int) (piece : TicPieceState)
    (h : t.is_coordinate_valid x y = false) :
    t.place_piece x y piece = (t, false) := by
  simp [TicTacToe.place_piece, h]

/-- Claim C1: a `place_piece` call succeeds and mutates exactly the one
target cell iff `0 ≤ x < size`, `0 ≤ y < size` and the target cell is
Empty; in every other case the board is unchanged and failure is
signaled; and after a success, a second place on the same cell fails
without mutating. -/
theorem claim_C1 (t : TicTacToe) (h : t.WF) (x y : Int) (piece : TicPieceState)
    (hp : piece ≠ TicPieceState.Empty) :
    ((t.place_piece x y piece).2 = true ↔
      (0 ≤ x ∧ x < (t.size : Int) ∧ 0 ≤ y ∧ y < (t.size : Int)
        ∧ t.getCell x.toNat y.toNat = TicPieceState.Empty))
    ∧ ((t.place_piece x y piece).2 = true →
        ((t.place_piece x y piece).1.getCell x.toNat y.toNat = piece
          ∧ (∀ i j : Nat, ¬(i = x.toNat ∧ j = y.toNat) →
              (t.place_piece x y piece).1.getCell i j = t.getCell i j)
          ∧ (t.place_piece x y piece).1.size = t.size))
    ∧ ((t.place_piece x y piece).2 = false → (t.place_piece x y piece).1 = t)
    ∧ ((t.place_piece x y piece).2 = true → ∀ piece2 : TicPieceState,
        ((t.place_piece x y piece).1.place_piece x y piece2).2 = false
          ∧ ((t.place_piece x y piece).1.place_piece x y piece2).1
              = (t.place_piece x y piece).1) := by
  by_cases hv : t.is_coordinate_valid x y = true
  · obtain ⟨hx0, hxs, hy0, hys, hemp⟩ := (is_coordinate_valid_iff t x y).mp hv
    have hxlen : x.toNat < t.board.length := by rw [h.1]; omega
    have hylen : y.toNat < (t.board.getD x.toNat []).length := by
      rw [h.2 _ (getD_mem _ _ _ hxlen)]; omega
    rw [place_piece_valid t x y piece hv]
    refine ⟨by simpa using (is_coordinate_valid_iff t x y).mp hv, ?_, ?_, ?_⟩
    · intro _
      exact ⟨getCell_setCell_self t _ _ piece hxlen hylen,
        fun i j hij => getCell_setCell_ne t _ _ i j piece hij, rfl⟩
    · intro hfalse
      cases hfalse
    · intro _ piece2
      have hnv : (t.setCell x.toNat y.toNat piece).is_coordinate_valid x y = false := by
        rw [Bool.eq_false_iff]
        intro hc
        obtain ⟨_, _, _, _, hemp2⟩ := (is_coordinate_valid_iff _ x y).mp hc
        rw [getCell_setCell_self t _ _ piece hxlen hylen] at hemp2
        exact hp hemp2
      rw [place_piece_invalid _ x y piece2 hnv]
      exact ⟨rfl, rfl⟩
  · have hv2 : t.is_coordinate_valid x y = false := by simpa using hv
    have hnc : ¬(0 ≤ x ∧ x < (t.size : Int) ∧ 0 ≤ y ∧ y < (t.size : Int)
        ∧ t.getCell x.toNat y.toNat = TicPieceState.Empty) := by
      intro hc
      rw [(is_coordinate_valid_iff t x y).mpr hc] at hv2
      cases hv2
    rw [place_piece_invalid t x y piece hv2]
    refine ⟨by simpa using hnc, ?_, fun _ => rfl, ?_⟩
    · intro hfalse
      cases hfalse
    · intro hfalse
      cases hfalse

/-- Witness for C1: on the fresh 3×3 board, placing Check at the origin
succeeds and the replay with Circle on the same cell fails. -/
theorem claim_C1_witness :
    exBoardFresh.WF ∧ TicPieceState.Check ≠ TicPieceState.Empty
      ∧ (exBoardFresh.place_piece 0 0 TicPieceState.Check).2 = true
      ∧ ((exBoardFresh.place_piece 0 0 TicPieceState.Check).1.place_piece 0 0
          TicPieceState.Circle).2 = false :=
  ⟨by decide, by decide,
    (claim_C1 exBoardFresh (by decide) 0 0 TicPieceState.Check (by decide)).1.mpr
      (by decide),
    (((claim_C1 exBoardFresh (by decide) 0 0 TicPieceState.Check (by decide)).2.2.2
        ((claim_C1 exBoardFresh (by decide) 0 0 TicPieceState.Check (by decide)).1.mpr
          (by decide))) TicPieceState.Circle).1⟩

theorem mem_empty_cells (t : TicTacToe) (x y : Nat) (h : (x, y) ∈ t.empty_cells) :
    t.getCell x y = TicPieceState.Empty ∧ x < t.size ∧ y < t.size := by
  simp only [TicTacToe.empty_cells, List.mem_flatMap, List.mem_filterMap,
    List.mem_range] at h
  obtain ⟨i, hi, j, hj, hij⟩ := h
  by_cases hc : (t.getCell i j == TicPieceState.Empty) = true
  · rw [if_pos hc] at hij
    obtain ⟨rfl, rfl⟩ := Prod.mk.injEq .. ▸ Option.some.inj hij
    exact ⟨by simpa using hc, hi, hj⟩
  · rw [if_neg hc] at hij
    cases hij

theorem place_piece_mono (t : TicTacToe) (x y : Int) (p : TicPieceState) (i j : Nat)
    (h : t.getCell i j ≠ TicPieceState.Empty) :
    (t.place_piece x y p).1.getCell i j = t.getCell i j := by
  by_cases hv : t.is_coordinate_valid x y = true
  · rw [place_piece_valid t x y p hv]
    obtain ⟨_, _, _, _, hemp⟩ := (is_coordinate_valid_iff t x y).mp hv
    apply getCell_setCell_ne
    intro hij
    obtain ⟨rfl, rfl⟩ := hij
    exact h hemp
  · rw [place_piece_invalid t x y p (by simpa using hv)]

theorem place_random_mono (t : TicTacToe) (c : Nat) (p : TicPieceState) (i j : Nat)
    (h : t.getCell i j ≠ TicPieceState.Empty) :
    (t.place_random_piece c p).1.getCell i j = t.getCell i j := by
  unfold TicTacToe.place_random_piece
  rcases hq : t.empty_cells.get? (c % t.empty_cells.length) with _ | ⟨x, y⟩
  · rfl
  · show (t.setCell x y p).getCell i j = t.getCell i j
    have hmem := List.get?_mem hq
    obtain ⟨hemp, _, _⟩ := mem_empty_cells t x y hmem
    apply getCell_setCell_ne
    intro hij
    obtain ⟨rfl, rfl⟩ := hij
    exact h hemp

theorem place_piece_size (t : TicTacToe) (x y : Int) (p : TicPieceState) :
    (t.place_piece x y p).1.size = t.size := by
  unfold TicTacToe.place_piece
  split <;> rfl

theorem place_random_size (t : TicTacToe) (c : Nat) (p : TicPieceState) :
    (t.place_random_piece c p).1.size = t.size := by
  unfold TicTacToe.place_random_piece
  split <;> rfl

theorem place_piece_WF (t : TicTacToe) (x y : Int) (p : TicPieceState) (h : t.WF) :
    (t.place_piece x y p).1.WF := by
  unfold TicTacToe.place_piece
  split
  · exact setCell_WF _ _ _ _ h
  · exact h

theorem place_random_WF (t : TicTacToe) (c : Nat) (p : TicPieceState) (h : t.WF) :
    (t.place_random_piece c p).1.WF := by
  unfold TicTacToe.place_random_piece
  split
  · exact setCell_WF _ _ _ _ h
  · exact h

theorem applyOp_mono (t : TicTacToe) (op : BoardOp) (i j : Nat)
    (h : t.getCell i j ≠ TicPieceState.Empty) :
    (t.applyOp op).getCell i j = t.getCell i j := by
  cases op with
  | place x y p => exact place_piece_mono t x y p i j h
  | placeRandom c p => exact place_random_mono t c p i j h

theorem applyOp_size (t : TicTacToe) (op : BoardOp) : (t.applyOp op).size = t.size := by
  cases op with
  | place x y p => exact place_piece_size t x y p
  | placeRandom c p => exact place_random_size t c p

theorem applyOp_WF (t : TicTacToe) (op : BoardOp) (h : t.WF) : (t.applyOp op).WF := by
  cases op with
  | place x y p => exact place_piece_WF t x y p h
  | placeRandom c p => exact place_random_WF t c p h

/-- Claim C10: marks are permanent.  No sequence of `place_piece` or
`place_random_piece` operations ever changes a cell already holding
Check or Circle (both write only to Empty cells), and the board's side
length and grid shape stay fixed. -/
theorem claim_C10 (t : TicTacToe) (h : t.WF) (ops : List BoardOp) :
    (∀ i j : Nat, t.getCell i j ≠ TicPieceState.Empty →
        (t.applyOps ops).getCell i j = t.getCell i j)
    ∧ (t.applyOps ops).size = t.size ∧ (t.applyOps ops).WF := by
  induction ops generalizing t with
  | nil => exact ⟨fun i j _ => rfl, rfl, h⟩
  | cons op rest ih =>
    obtain ⟨ih1, ih2, ih3⟩ := ih (t.applyOp op) (applyOp_WF t op h)
    have hstep : t.applyOps (op :: rest) = (t.applyOp op).applyOps rest := rfl
    refine ⟨?_, ?_, by rw [hstep]; exact ih3⟩
    · intro i j hne
      have h1 : (t.applyOp op).getCell i j = t.getCell i j := applyOp_mono t op i j hne
      have h2 : (t.applyOp op).getCell i j ≠ TicPieceState.Empty := by
        rw [h1]; exact hne
      rw [hstep, ih1 i j h2, h1]
    · rw [hstep, ih2, applyOp_size]

/-- Witness for C10: the Check placed at the origin survives a Circle
placement and a random Check placement, and the size is unchanged. -/
theorem claim_C10_witness :
    exBoardCheck.WF ∧
      (exBoardCheck.applyOps [BoardOp.place 1 1 TicPieceState.Circle,
          BoardOp.placeRandom 0 TicPieceState.Check]).getCell 0 0
        = exBoardCheck.getCell 0 0
      ∧ (exBoardCheck.applyOps [BoardOp.place 1 1 TicPieceState.Circle,
          BoardOp.placeRandom 0 TicPieceState.Check]).size = exBoardCheck.size :=
  ⟨by decide,
    (claim_C10 exBoardCheck (by decide) [BoardOp.place 1 1 TicPieceState.Circle,
        BoardOp.placeRandom 0 TicPieceState.Check]).1 0 0 (by decide),
    (claim_C10 exBoardCheck (by decide) [BoardOp.place 1 1 TicPieceState.Circle,
        BoardOp.placeRandom 0 TicPieceState.Check]).2.1⟩

theorem check_win_iff (t : TicTacToe) (p : TicPieceState) :
    t.check_win p = true ↔ t.hasLine p := by
  unfold TicTacToe.check_win TicTacToe.hasLine TicTacToe.rowFull TicTacToe.colFull
  simp only [Bool.or_eq_true, List.any_eq_true, List.all_eq_true, List.mem_range,
    beq_iff_eq]
  constructor
  · rintro ((⟨i, hi, hrow | hcol⟩ | hd) | ha)
    · exact Or.inl ⟨i, hi, hrow⟩
    · exact Or.inr (Or.inl ⟨i, hi, hcol⟩)
    · exact Or.inr (Or.inr (Or.inl hd))
    · exact Or.inr (Or.inr (Or.inr ha))
  · rintro (⟨i, hi, hrow⟩ | ⟨j, hj, hcol⟩ | hd | ha)
    · exact Or.inl (Or.inl ⟨i, hi, Or.inl hrow⟩)
    · exact Or.inl (Or.inl ⟨j, hj, Or.inr hcol⟩)
    · exact Or.inl (Or.inr hd)
    · exact Or.inr ha

theorem rowVerdict_eq_some (row : List TicPieceState) (g : GameState)
    (h : rowVerdict row = some g) :
    (g = GameState.Circle ∧ ∀ c ∈ row, c = TicPieceState.Circle)
      ∨ (g = GameState.Check ∧ ∀ c ∈ row, c = TicPieceState.Check) := by
  unfold rowVerdict at h
  split_ifs at h with h1 h2
  · obtain rfl : GameState.Circle = g := Option.some.inj h
    exact Or.inl ⟨rfl, by simpa [List.all_eq_true] using h1⟩
  · obtain rfl : GameState.Check = g := Option.some.inj h
    exact Or.inr ⟨rfl, by simpa [List.all_eq_true] using h2⟩

theorem colVerdict_eq_some (t : TicTacToe) (col : Nat) (g : GameState)
    (h : t.colVerdict col = some g) :
    (g = GameState.Circle ∧ ∀ row ∈ t.board, row.getD col TicPieceState.Empty
        = TicPieceState.Circle)
      ∨ (g = GameState.Check ∧ ∀ row ∈ t.board, row.getD col TicPieceState.Empty
        = TicPieceState.Check) := by
  unfold TicTacToe.colVerdict at h
  split_ifs at h with h1 h2
  · obtain rfl : GameState.Circle = g := Option.some.inj h
    exact Or.inl ⟨rfl, by simpa [List.all_eq_true] using h1⟩
  · obtain rfl : GameState.Check = g := Option.some.inj h
    exact Or.inr ⟨rfl, by simpa [List.all_eq_true] using h2⟩

theorem rowAll_iff_rowFull (t : TicTacToe) (h : t.WF) (p : TicPieceState) (i : Nat)
    (hi : i < t.size) :
    (∀ c ∈ t.board.getD i [], c = p) ↔ t.rowFull i p := by
  unfold TicTacToe.rowFull TicTacToe.getCell
  rw [forall_mem_iff_getD _ _ TicPieceState.Empty,
    h.2 _ (getD_mem _ _ _ (by rw [h.1]; exact hi))]

theorem exists_row_iff (t : TicTacToe) (h : t.WF) (p : TicPieceState) :
    (∃ row ∈ t.board, ∀ c ∈ row, c = p) ↔ ∃ i < t.size, t.rowFull i p := by
  rw [exists_mem_iff_getD _ _ [], h.1]
  exact exists_congr fun i => and_congr_right fun hi => rowAll_iff_rowFull t h p i hi

theorem colAll_iff_colFull (t : TicTacToe) (h : t.WF) (p : TicPieceState) (col : Nat) :
    (∀ row ∈ t.board, row.getD col TicPieceState.Empty = p) ↔ t.colFull col p := by
  unfold TicTacToe.colFull TicTacToe.getCell
  rw [forall_mem_iff_getD _ _ ([] : List TicPieceState), h.1]

theorem grid_forall_iff (t : TicTacToe) (h : t.WF) (P : TicPieceState → Prop) :
    (∀ row ∈ t.board, ∀ c ∈ row, P c) ↔
      ∀ i < t.size, ∀ j < t.size, P (t.getCell i j) := by
  rw [forall_mem_iff_getD t.board _ [], h.1]
  refine forall_congr' fun i => imp_congr_right fun hi => ?_
  rw [forall_mem_iff_getD _ _ TicPieceState.Empty,
    h.2 _ (getD_mem _ _ _ (by rw [h.1]; exact hi))]
  exact Iff.rfl

theorem boardFullCheck_iff (t : TicTacToe) (h : t.WF) :
    t.boardFullCheck = true ↔ t.Full := by
  unfold TicTacToe.boardFullCheck TicTacToe.Full
  simp only [List.all_eq_true, Bool.not_eq_eq_eq_not, Bool.not_true, beq_eq_false_iff_ne,
    ne_eq]
  exact grid_forall_iff t h fun c => ¬c = TicPieceState.Empty

theorem status_main (t : TicTacToe) (h : t.WF) :
    (t.check_game_status = GameState.Circle ∧ t.hasLine TicPieceState.Circle)
    ∨ (t.check_game_status = GameState.Check ∧ t.hasLine TicPieceState.Check)
    ∨ (t.check_game_status = GameState.Draw ∧ ¬t.hasLine TicPieceState.Circle
        ∧ ¬t.hasLine TicPieceState.Check ∧ t.Full)
    ∨ (t.check_game_status = GameState.Playing ∧ ¬t.hasLine TicPieceState.Circle
        ∧ ¬t.hasLine TicPieceState.Check ∧ ¬t.Full) := by
  rcases hr : t.board.findSome? rowVerdict with _ | g
  · rcases hc : (List.range t.size).findSome? t.colVerdict with _ | g
    · by_cases hw1 : t.check_win TicPieceState.Circle = true
      · have hstatus : t.check_game_status = GameState.Circle := by
          unfold TicTacToe.check_game_status
          rw [hr, hc, if_pos hw1]
        exact Or.inl ⟨hstatus, (check_win_iff t _).mp hw1⟩
      · by_cases hw2 : t.check_win TicPieceState.Check = true
        · have hstatus : t.check_game_status = GameState.Check := by
            unfold TicTacToe.check_game_status
            rw [hr, hc, if_neg hw1, if_pos hw2]
          exact Or.inr (Or.inl ⟨hstatus, (check_win_iff t _).mp hw2⟩)
        · have hnc : ¬t.hasLine TicPieceState.Circle := fun hl =>
            hw1 ((check_win_iff t _).mpr hl)
          have hnk : ¬t.hasLine TicPieceState.Check := fun hl =>
            hw2 ((check_win_iff t _).mpr hl)
          by_cases hfull : t.boardFullCheck = true
          · have hstatus : t.check_game_status = GameState.Draw := by
              unfold TicTacToe.check_game_status
              rw [hr, hc, if_neg hw1, if_neg hw2, if_pos hfull]
            exact Or.inr (Or.inr (Or.inl
              ⟨hstatus, hnc, hnk, (boardFullCheck_iff t h).mp hfull⟩))
          · have hstatus : t.check_game_status = GameState.Playing := by
              unfold TicTacToe.check_game_status
              rw [hr, hc, if_neg hw1, if_neg hw2, if_neg hfull]
            exact Or.inr (Or.inr (Or.inr
              ⟨hstatus, hnc, hnk, fun hf => hfull ((boardFullCheck_iff t h).mpr hf)⟩))
    · obtain ⟨col, hcolmem, hv⟩ := List.exists_of_findSome?_eq_some hc
      have hcol : col < t.size := List.mem_range.mp hcolmem
      have hstatus : t.check_game_status = g := by
        unfold TicTacToe.check_game_status
        rw [hr, hc]
      rcases colVerdict_eq_some t col g hv with ⟨rfl, hall⟩ | ⟨rfl, hall⟩
      · exact Or.inl ⟨hstatus,
          Or.inr (Or.inl ⟨col, hcol, (colAll_iff_colFull t h _ col).mp hall⟩)⟩
      · exact Or.inr (Or.inl ⟨hstatus,
          Or.inr (Or.inl ⟨col, hcol, (colAll_iff_colFull t h _ col).mp hall⟩)⟩)
  · obtain ⟨row, hmem, hv⟩ := List.exists_of_findSome?_eq_some hr
    have hstatus : t.check_game_status = g := by
      unfold TicTacToe.check_game_status
      rw [hr]
    rcases rowVerdict_eq_some row g hv with ⟨rfl, hall⟩ | ⟨rfl, hall⟩
    · exact Or.inl ⟨hstatus, Or.inl ((exists_row_iff t h _).mp ⟨row, hmem, hall⟩)⟩
    · exact Or.inr (Or.inl ⟨hstatus, Or.inl ((exists_row_iff t h _).mp ⟨row, hmem, hall⟩)⟩)

/-- Counterexample to C2 as stated: on a board whose row 0 is all Check
and whose row 2 is all Circle, Circle has a fully monochrome row, yet
`check_game_status` does not return Circle's win — the row scan
encounters the Check row first, so the universal "returns the
corresponding mark's win whenever some full row consists entirely of
that mark" fails. -/
theorem claim_C2_counterexample :
    exBoardTwoLines.rowFull 2 TicPieceState.Circle ∧ 2 < exBoardTwoLines.size
      ∧ exBoardTwoLines.check_game_status ≠ GameState.Circle := by
  refine ⟨?_, by decide, by decide⟩
  decide

/-- Claim C2, amended: `check_game_status` returns a mark's win only when
that mark has a monochrome line; it returns a mark's win whenever that
mark has a monochrome line and the other mark has none (when both marks
have lines, scan order fixes which of the two wins is reported); it
returns Draw exactly when neither mark has a line and no cell is Empty,
and Playing exactly when neither mark has a line and some cell is
Empty. -/
theorem claim_C2 (t : TicTacToe) (h : t.WF) :
    (t.check_game_status = GameState.Circle → t.hasLine TicPieceState.Circle)
    ∧ (t.check_game_status = GameState.Check → t.hasLine TicPieceState.Check)
    ∧ (t.hasLine TicPieceState.Circle → ¬t.hasLine TicPieceState.Check →
        t.check_game_status = GameState.Circle)
    ∧ (t.hasLine TicPieceState.Check → ¬t.hasLine TicPieceState.Circle →
        t.check_game_status = GameState.Check)
    ∧ (t.check_game_status = GameState.Draw ↔
        (¬t.hasLine TicPieceState.Circle ∧ ¬t.hasLine TicPieceState.Check ∧ t.Full))
    ∧ (t.check_game_status = GameState.Playing ↔
        (¬t.hasLine TicPieceState.Circle ∧ ¬t.hasLine TicPieceState.Check ∧ ¬t.Full)) := by
  have hm := status_main t h
  refine ⟨?_, ?_, ?_, ?_, ?_, ?_⟩
  · intro hs
    rcases hm with ⟨he, hl⟩ | ⟨he, hl⟩ | ⟨he, _⟩ | ⟨he, _⟩ <;> rw [hs] at he <;>
      first | exact hl | cases he
  · intro hs
    rcases hm with ⟨he, hl⟩ | ⟨he, hl⟩ | ⟨he, _⟩ | ⟨he, _⟩ <;> rw [hs] at he <;>
      first | exact hl | cases he
  · intro hlc hnk
    rcases hm with ⟨he, hl⟩ | ⟨he, hl⟩ | ⟨he, hf⟩ | ⟨he, hf⟩
    · exact he
    · exact absurd hl hnk
    · exact absurd hlc hf.1
    · exact absurd hlc hf.1
  · intro hlk hnc
    rcases hm with ⟨he, hl⟩ | ⟨he, hl⟩ | ⟨he, hf⟩ | ⟨he, hf⟩
    · exact absurd hl hnc
    · exact he
    · exact absurd hlk hf.2.1
    · exact absurd hlk hf.2.1
  · constructor
    · intro hs
      rcases hm with ⟨he, hl⟩ | ⟨he, hl⟩ | ⟨he, hf⟩ | ⟨he, hf⟩ <;> rw [hs] at he <;>
        first | exact hf | cases he
    · intro ⟨hnc, hnk, hfull⟩
      rcases hm with ⟨he, hl⟩ | ⟨he, hl⟩ | ⟨he, hf⟩ | ⟨he, hf⟩
      · exact absurd hl hnc
      · exact absurd hl hnk
      · exact he
      · exact absurd hfull hf.2.2
  · constructor
    · intro hs
      rcases hm with ⟨he, hl⟩ | ⟨he, hl⟩ | ⟨he, hf⟩ | ⟨he, hf⟩ <;> rw [hs] at he <;>
        first | exact hf | cases he
    · intro ⟨hnc, hnk, hnfull⟩
      rcases hm with ⟨he, hl⟩ | ⟨he, hl⟩ | ⟨he, hf⟩ | ⟨he, hf⟩
      · exact absurd hl hnc
      · exact absurd hl hnk
      · exact absurd hf.2.2 hnfull
      · exact he

/-- Witness for C2 at the fresh 3×3 board: no line and an Empty cell
remain, so the status is Playing. -/
theorem claim_C2_witness :
    exBoardFresh.WF ∧ exBoardFresh.check_game_status = GameState.Playing :=
  ⟨by decide, (claim_C2 exBoardFresh (by decide)).2.2.2.2.2.mpr (by decide)⟩

theorem rco_nil : replaceCircleO [] = [] := rfl

theorem rco_cell (c : TicPieceState) (s : List Char) :
    replaceCircleO (dumpCell c ++ s) = dumpCellMid c ++ replaceCircleO s := by
  cases c <;> rfl

theorem rco_sep (s : List Char) :
    replaceCircleO (',' :: ' ' :: s) = ',' :: ' ' :: replaceCircleO s := rfl

theorem rco_lb (s : List Char) :
    replaceCircleO ('[' :: s) = '[' :: replaceCircleO s := rfl

theorem rco_rb (s : List Char) :
    replaceCircleO (']' :: s) = ']' :: replaceCircleO s := rfl

theorem rco_cells (row : List TicPieceState) (s : List Char) :
    replaceCircleO (joinComma (row.map dumpCell) ++ s)
      = joinComma (row.map dumpCellMid) ++ replaceCircleO s := by
  induction row generalizing s with
  | nil => rfl
  | cons c rest ih =>
    cases rest with
    | nil => exact rco_cell c s
    | cons c2 r2 =>
      have h1 : joinComma ((c :: c2 :: r2).map dumpCell)
          = dumpCell c ++ (',' :: ' ' :: joinComma ((c2 :: r2).map dumpCell)) := rfl
      have h2 : joinComma ((c :: c2 :: r2).map dumpCellMid)
          = dumpCellMid c ++ (',' :: ' ' :: joinComma ((c2 :: r2).map dumpCellMid)) := rfl
      rw [h1, h2, List.append_assoc, List.cons_append, List.cons_append, rco_cell,
        rco_sep, ih, List.append_assoc, List.cons_append, List.cons_append]

theorem rco_row (row : List TicPieceState) (s : List Char) :
    replaceCircleO (dumpRow row ++ s) = dumpRowMid row ++ replaceCircleO s := by
  have h1 : dumpRow row ++ s
      = '[' :: (joinComma (row.map dumpCell) ++ (']' :: s)) := by
    simp [dumpRow]
  have h2 : dumpRowMid row ++ replaceCircleO s
      = '[' :: (joinComma (row.map dumpCellMid) ++ (']' :: replaceCircleO s)) := by
    simp [dumpRowMid]
  rw [h1, h2, rco_lb, rco_cells, rco_rb]

theorem rco_rows (rows : List (List TicPieceState)) (s : List Char) :
    replaceCircleO (joinComma (rows.map dumpRow) ++ s)
      = joinComma (rows.map dumpRowMid) ++ replaceCircleO s := by
  induction rows generalizing s with
  | nil => rfl
  | cons r rest ih =>
    cases rest with
    | nil => exact rco_row r s
    | cons r2 rr =>
      have h1 : joinComma ((r :: r2 :: rr).map dumpRow)
          = dumpRow r ++ (',' :: ' ' :: joinComma ((r2 :: rr).map dumpRow)) := rfl
      have h2 : joinComma ((r :: r2 :: rr).map dumpRowMid)
          = dumpRowMid r ++ (',' :: ' ' :: joinComma ((r2 :: rr).map dumpRowMid)) := rfl
      rw [h1, h2, List.append_assoc, List.cons_append, List.cons_append, rco_row,
        rco_sep, ih, List.append_assoc, List.cons_append, List.cons_append]

theorem rco_board (b : List (List TicPieceState)) :
    replaceCircleO (dumpBoard b) = dumpBoardMid b := by
  have h1 : dumpBoard b = '[' :: (joinComma (b.map dumpRow) ++ (']' :: [])) := by
    simp [dumpBoard]
  have h2 : dumpBoardMid b
      = '[' :: (joinComma (b.map dumpRowMid) ++ (']' :: replaceCircleO [])) := by
    simp [dumpBoardMid, rco_nil]
  rw [h1, h2, rco_lb, rco_rows, rco_rb]

theorem rcx_nil : replaceCheckX [] = [] := rfl

theorem rcx_cell (c : TicPieceState) (s : List Char) :
    replaceCheckX (dumpCellMid c ++ s) = dumpCellDisplay c ++ replaceCheckX s := by
  cases c <;> rfl

theorem rcx_sep (s : List Char) :
    replaceCheckX (',' :: ' ' :: s) = ',' :: ' ' :: replaceCheckX s := rfl

theorem rcx_lb (s : List Char) :
    replaceCheckX ('[' :: s) = '[' :: replaceCheckX s := rfl

theorem rcx_rb (s : List Char) :
    replaceCheckX (']' :: s) = ']' :: replaceCheckX s := rfl

theorem rcx_cells (row : List TicPieceState) (s : List Char) :
    replaceCheckX (joinComma (row.map dumpCellMid) ++ s)
      = joinComma (row.map dumpCellDisplay) ++ replaceCheckX s := by
  induction row generalizing s with
  | nil => rfl
  | cons c rest ih =>
    cases rest with
    | nil => exact rcx_cell c s
    | cons c2 r2 =>
      have h1 : joinComma ((c :: c2 :: r2).map dumpCellMid)
          = dumpCellMid c ++ (',' :: ' ' :: joinComma ((c2 :: r2).map dumpCellMid)) := rfl
      have h2 : joinComma ((c :: c2 :: r2).map dumpCellDisplay)
          = dumpCellDisplay c
              ++ (',' :: ' ' :: joinComma ((c2 :: r2).map dumpCellDisplay)) := rfl
      rw [h1, h2, List.append_assoc, List.cons_append, List.cons_append, rcx_cell,
        rcx_sep, ih, List.append_assoc, List.cons_append, List.cons_append]

theorem rcx_row (row : List TicPieceState) (s : List Char) :
    replaceCheckX (dumpRowMid row ++ s) = dumpRowDisplay row ++ replaceCheckX s := by
  have h1 : dumpRowMid row ++ s
      = '[' :: (joinComma (row.map dumpCellMid) ++ (']' :: s)) := by
    simp [dumpRowMid]
  have h2 : dumpRowDisplay row ++ replaceCheckX s
      = '[' :: (joinComma (row.map dumpCellDisplay) ++ (']' :: replaceCheckX s)) := by
    simp [dumpRowDisplay]
  rw [h1, h2, rcx_lb, rcx_cells, rcx_rb]

theorem rcx_rows (rows : List (List TicPieceState)) (s : List Char) :
    replaceCheckX (joinComma (rows.map dumpRowMid) ++ s)
      = joinComma (rows.map dumpRowDisplay) ++ replaceCheckX s := by
  induction rows generalizing s with
  | nil => rfl
  | cons r rest ih =>
    cases rest with
    | nil => exact rcx_row r s
    | cons r2 rr =>
      have h1 : joinComma ((r :: r2 :: rr).map dumpRowMid)
          = dumpRowMid r ++ (',' :: ' ' :: joinComma ((r2 :: rr).map dumpRowMid)) := rfl
      have h2 : joinComma ((r :: r2 :: rr).map dumpRowDisplay)
          = dumpRowDisplay r
              ++ (',' :: ' ' :: joinComma ((r2 :: rr).map dumpRowDisplay)) := rfl
      rw [h1, h2, List.append_assoc, List.cons_append, List.cons_append, rcx_row,
        rcx_sep, ih, List.append_assoc, List.cons_append, List.cons_append]

theorem rcx_boardMid (b : List (List TicPieceState)) :
    replaceCheckX (dumpBoardMid b) = dumpBoardDisplay b := by
  have h1 : dumpBoardMid b = '[' :: (joinComma (b.map dumpRowMid) ++ (']' :: [])) := by
    simp [dumpBoardMid]
  have h2 : dumpBoardDisplay b
      = '[' :: (joinComma (b.map dumpRowDisplay) ++ (']' :: replaceCheckX [])) := by
    simp [dumpBoardDisplay, rcx_nil]
  rw [h1, h2, rcx_lb, rcx_rows, rcx_rb]

/-- The textual replace pair over the serialized board equals the JSON
encoding of the per-cell display tokens: the token set is closed, so the
substitution acts exactly cell-wise. -/
theorem subst_board (b : List (List TicPieceState)) :
    replaceCheckX (replaceCircleO (dumpBoard b)) = dumpBoardDisplay b := by
  rw [rco_board, rcx_boardMid]

theorem heapSet_self (heap : Nat → GameSession) (i : Nat) (s : GameSession) :
    heapSet heap i s i = s := by
  simp [heapSet]

theorem heapSet_ne (heap : Nat → GameSession) (i j : Nat) (s : GameSession)
    (h : j ≠ i) : heapSet heap i s j = heap j := by
  simp [heapSet, h]

theorem gameStep_heap_eq (ai : Bool) (choice : Nat) (now : Rat)
    (heap : Nat → GameSession) (registry : List Nat) (sid : Nat) (pos : Position) :
    (gameStep ai choice now heap registry sid pos).heap
      = heapSet heap sid ⟨(heap sid).name, (heap sid).players,
          stepBoard ai choice (heap sid).board pos, (heap sid).time⟩ := by
  simp only [gameStep]
  split
  · rfl
  · split <;> rfl

theorem gameStep_sent_eq (ai : Bool) (choice : Nat) (now : Rat)
    (heap : Nat → GameSession) (registry : List Nat) (sid : Nat) (pos : Position) :
    (gameStep ai choice now heap registry sid pos).sent
      = ((heap sid).players.map fun p => (p,
          (⟨0, replaceCheckX (replaceCircleO
            (stepBoard ai choice (heap sid).board pos).get_board)⟩ : Msg)))
        ++ (if (stepBoard ai choice (heap sid).board pos).check_game_status
              = GameState.Playing then []
            else (heap sid).players.map fun p =>
              (p, (⟨1, (stepBoard ai choice (heap sid).board pos).check_game_status.value⟩
                : Msg))) := by
  simp only [gameStep]
  split
  · rw [List.append_nil]
  · split <;> rfl

theorem gameStep_aiInvoked_eq (ai : Bool) (choice : Nat) (now : Rat)
    (heap : Nat → GameSession) (registry : List Nat) (sid : Nat) (pos : Position) :
    (gameStep ai choice now heap registry sid pos).aiInvoked
      = (if ai then
          (if pos.type == TicPieceState.Check then some TicPieceState.Circle
           else some TicPieceState.Check)
         else none) := by
  simp only [gameStep]
  split
  · rfl
  · split <;> rfl

theorem gameStep_playing (ai : Bool) (choice : Nat) (now : Rat)
    (heap : Nat → GameSession) (registry : List Nat) (sid : Nat) (pos : Position)
    (h : (stepBoard ai choice (heap sid).board pos).check_game_status
      = GameState.Playing) :
    (gameStep ai choice now heap registry sid pos).registry
        = sweepGames (gameStep ai choice now heap registry sid pos).heap now registry
      ∧ (gameStep ai choice now heap registry sid pos).breaks = false
      ∧ (gameStep ai choice now heap registry sid pos).removeError = false := by
  rw [gameStep_heap_eq]
  simp only [gameStep]
  rw [if_pos h]
  exact ⟨rfl, rfl, rfl⟩

theorem pyRemove_eq_ok (l : List Nat) (x : Nat) (h : x ∈ l) :
    pyRemove l x = .ok (l.erase x) := by
  induction l with
  | nil => cases h
  | cons a t ih =>
    by_cases hax : a = x
    · subst hax
      simp [pyRemove, List.erase_cons_head]
    · have hx : x ∈ t := by
        rcases List.mem_cons.mp h with h1 | h1
        · exact absurd h1.symm hax
        · exact h1
      have herase : (a :: t).erase x = a :: t.erase x := by
        rw [List.erase_cons_tail]
        simp [hax]
      simp [pyRemove, hax, ih hx, herase, Except.map]

theorem pyRemove_eq_error (l : List Nat) (x : Nat) (h : x ∉ l) :
    pyRemove l x = .error () := by
  induction l with
  | nil => rfl
  | cons a t ih =>
    have hax : a ≠ x := fun he => h (he ▸ List.mem_cons_self a t)
    have hx : x ∉ t := fun hm => h (List.mem_cons_of_mem a hm)
    simp [pyRemove, hax, ih hx, Except.map]

theorem gameStep_terminal (ai : Bool) (choice : Nat) (now : Rat)
    (heap : Nat → GameSession) (registry : List Nat) (sid : Nat) (pos : Position)
    (h : (stepBoard ai choice (heap sid).board pos).check_game_status
      ≠ GameState.Playing) :
    (gameStep ai choice now heap registry sid pos).breaks = true
      ∧ (sid ∈ registry →
          (gameStep ai choice now heap registry sid pos).removeError = false
            ∧ (gameStep ai choice now heap registry sid pos).registry
                = registry.erase sid)
      ∧ (sid ∉ registry →
          (gameStep ai choice now heap registry sid pos).removeError = true
            ∧ (gameStep ai choice now heap registry sid pos).registry = registry) := by
  simp only [gameStep]
  rw [if_neg h]
  refine ⟨?_, ?_, ?_⟩
  · split <;> rfl
  · intro hmem
    rw [pyRemove_eq_ok registry sid hmem]
    exact ⟨rfl, rfl⟩
  · intro hmem
    rw [pyRemove_eq_error registry sid hmem]
    exact ⟨rfl, rfl⟩

/-- Counterexample to C3 as stated: the initial op-0 state message sent
to a newly joined participant (line 145) carries the raw `get_board()`
snapshot without the display substitution, so on a board holding a
Check mark its data is not the JSON array of display tokens the claim
requires of every op-0 message. -/
theorem claim_C3_counterexample :
    ((joinSession (fun _ => exSessCheck) [0] ['g'] 5).map fun r => r.2.2)
        = some ⟨0, dumpBoard exBoardCheck.board⟩
      ∧ dumpBoard exBoardCheck.board ≠ dumpBoardDisplay exBoardCheck.board :=
  ⟨rfl, by decide⟩

/-- Claim C3, amended: every op-0 message broadcast by the move loop
carries the JSON-encoded 2-D array of per-cell display tokens (Circle
as "O", Check as "X", Empty as "-"); the initial op-0 state message
emitted on join instead carries the raw snapshot, whose tokens are
"Circle", "Check" and "-" (no substitution is applied on line 145). -/
theorem claim_C3 :
    (∀ (ai : Bool) (choice : Nat) (now : Rat) (heap : Nat → GameSession)
        (registry : List Nat) (sid : Nat) (pos : Position),
      ∀ pm ∈ (gameStep ai choice now heap registry sid pos).sent, pm.2.op = 0 →
        pm.2.data = dumpBoardDisplay
          (((gameStep ai choice now heap registry sid pos).heap sid).board.board))
    ∧ (∀ (heap : Nat → GameSession) (registry : List Nat) (name : List Char)
        (conn : Nat) (r : (Nat → GameSession) × Nat × Msg),
      joinSession heap registry name conn = some r →
        r.2.2 = ⟨0, dumpBoard (heap r.2.1).board.board⟩) := by
  constructor
  · intro ai choice now heap registry sid pos pm hpm hop
    rw [gameStep_sent_eq] at hpm
    rw [gameStep_heap_eq, heapSet_self]
    rcases List.mem_append.mp hpm with hin | hin
    · obtain ⟨p, _, rfl⟩ := List.mem_map.mp hin
      show replaceCheckX (replaceCircleO
        (stepBoard ai choice (heap sid).board pos).get_board) = _
      rw [TicTacToe.get_board, subst_board]
    · by_cases hs : (stepBoard ai choice (heap sid).board pos).check_game_status
          = GameState.Playing
      · rw [if_pos hs] at hin
        cases hin
      · rw [if_neg hs] at hin
        obtain ⟨p, _, rfl⟩ := List.mem_map.mp hin
        cases hop
  · intro heap registry name conn r hr
    unfold joinSession at hr
    rcases hfind : findGame heap registry name with _ | sid
    · rw [hfind] at hr
      cases hr
    · rw [hfind] at hr
      cases Option.some.inj hr
      rfl

/-- Witness for C3: a concrete non-terminal step on the fresh board with
one participant; the single broadcast message is the display-encoded
board, and the concrete join message carries the raw snapshot. -/
theorem claim_C3_witness :
    ((0, (⟨0, replaceCheckX (replaceCircleO
        (stepBoard false 0 exBoardFresh ⟨0, 0, TicPieceState.Check⟩).get_board)⟩ : Msg))
      ∈ (gameStep false 0 0 exHeapFresh [0] 0 ⟨0, 0, TicPieceState.Check⟩).sent)
    ∧ (⟨0, replaceCheckX (replaceCircleO
        (stepBoard false 0 exBoardFresh ⟨0, 0, TicPieceState.Check⟩).get_board)⟩
          : Msg).data
        = dumpBoardDisplay (((gameStep false 0 0 exHeapFresh [0] 0
            ⟨0, 0, TicPieceState.Check⟩).heap 0).board.board)
    ∧ joinSession exHeapFresh [0] ['h'] 9
        = some (heapSet exHeapFresh 0 ⟨['h'], [0, 9], exBoardFresh, 0⟩, 0,
            ⟨0, exBoardFresh.get_board⟩)
    ∧ ((heapSet exHeapFresh 0 ⟨['h'], [0, 9], exBoardFresh, 0⟩, 0,
          (⟨0, exBoardFresh.get_board⟩ : Msg)) : (Nat → GameSession) × Nat × Msg).2.2
        = ⟨0, dumpBoard (exHeapFresh 0).board.board⟩ :=
  ⟨by decide, claim_C3.1 false 0 0 exHeapFresh [0] 0 ⟨0, 0, TicPieceState.Check⟩
      (0, ⟨0, replaceCheckX (replaceCircleO
        (stepBoard false 0 exBoardFresh ⟨0, 0, TicPieceState.Check⟩).get_board)⟩)
      (by decide) rfl,
    rfl,
    claim_C3.2 exHeapFresh [0] ['h'] 9
      (heapSet exHeapFresh 0 ⟨['h'], [0, 9], exBoardFresh, 0⟩, 0,
        ⟨0, exBoardFresh.get_board⟩) rfl⟩

/-- Counterexample to C4 as stated: after participant 0's winning move
the step is terminal (the op-1 message goes out and the handling loop
breaks), yet participant 1's loop is not transitioned to Terminated —
`break` stops only the coroutine that executed it. -/
theorem claim_C4_counterexample :
    (gameStep false 0 0 (fun _ => exSessNearWin) [7] 7
        ⟨0, 2, TicPieceState.Check⟩).breaks = true
      ∧ (1, (⟨1, GameState.Check.value⟩ : Msg))
          ∈ (gameStep false 0 0 (fun _ => exSessNearWin) [7] 7
              ⟨0, 2, TicPieceState.Check⟩).sent
      ∧ stepStatuses (fun _ => ConnStatus.Active) 0
          (gameStep false 0 0 (fun _ => exSessNearWin) [7] 7
            ⟨0, 2, TicPieceState.Check⟩) 1 = ConnStatus.Active :=
  ⟨by decide, by decide, by decide⟩

/-- Claim C4, amended: when the recomputed outcome is terminal, an op-1
message whose data is one of "Circle", "Check", "Draw" is sent to every
current participant, the session is removed from the registry without
error, and the handling connection's loop stops (its status becomes
Terminated); the loops of the session's other connections are left
untouched by this path. -/
theorem claim_C4 (ai : Bool) (choice : Nat) (now : Rat) (heap : Nat → GameSession)
    (registry : List Nat) (sid : Nat) (pos : Position) (conn : Nat)
    (statuses : Nat → ConnStatus)
    (hterm : (stepBoard ai choice (heap sid).board pos).check_game_status
      ≠ GameState.Playing)
    (hcount : registry.count sid = 1) :
    (∀ p ∈ (heap sid).players,
        (p, (⟨1, (stepBoard ai choice (heap sid).board pos).check_game_status.value⟩
          : Msg)) ∈ (gameStep ai choice now heap registry sid pos).sent)
    ∧ ((stepBoard ai choice (heap sid).board pos).check_game_status.value
          = GameState.Circle.value
        ∨ (stepBoard ai choice (heap sid).board pos).check_game_status.value
          = GameState.Check.value
        ∨ (stepBoard ai choice (heap sid).board pos).check_game_status.value
          = GameState.Draw.value)
    ∧ sid ∉ (gameStep ai choice now heap registry sid pos).registry
    ∧ (gameStep ai choice now heap registry sid pos).breaks = true
    ∧ (gameStep ai choice now heap registry sid pos).removeError = false
    ∧ stepStatuses statuses conn (gameStep ai choice now heap registry sid pos) conn
        = ConnStatus.Terminated
    ∧ (∀ c, c ≠ conn →
        stepStatuses statuses conn (gameStep ai choice now heap registry sid pos) c
          = statuses c) := by
  have hmem : sid ∈ registry := by
    rw [← List.count_pos_iff, hcount]
    omega
  obtain ⟨hbr, hok, _⟩ := gameStep_terminal ai choice now heap registry sid pos hterm
  obtain ⟨hre, hreg⟩ := hok hmem
  refine ⟨?_, ?_, ?_, hbr, hre, ?_, ?_⟩
  · intro p hp
    rw [gameStep_sent_eq, if_neg hterm]
    exact List.mem_append_right _ (List.mem_map.mpr ⟨p, hp, rfl⟩)
  · cases hstat : (stepBoard ai choice (heap sid).board pos).check_game_status
    · exact Or.inl rfl
    · exact Or.inr (Or.inl rfl)
    · exact Or.inr (Or.inr rfl)
    · exact absurd hstat hterm
  · rw [hreg]
    rw [← List.count_eq_zero, List.count_erase_self, hcount]
  · simp [stepStatuses, hbr]
  · intro c hc
    simp [stepStatuses, hc]

/-- Witness for C4: participant 0 completes Check's row 0 in a
two-participant session; participant 1 receives the op-1 message, the
session id leaves the registry, the step breaks and the handling
connection's status becomes Terminated. -/
theorem claim_C4_witness :
    ((1, (⟨1, (stepBoard false 0 ((fun _ => exSessNearWin) 7).board
        ⟨0, 2, TicPieceState.Check⟩).check_game_status.value⟩ : Msg))
      ∈ (gameStep false 0 0 (fun _ => exSessNearWin) [7] 7
          ⟨0, 2, TicPieceState.Check⟩).sent)
    ∧ 7 ∉ (gameStep false 0 0 (fun _ => exSessNearWin) [7] 7
        ⟨0, 2, TicPieceState.Check⟩).registry
    ∧ (gameStep false 0 0 (fun _ => exSessNearWin) [7] 7
        ⟨0, 2, TicPieceState.Check⟩).removeError = false
    ∧ stepStatuses (fun _ => ConnStatus.Active) 0
        (gameStep false 0 0 (fun _ => exSessNearWin) [7] 7
          ⟨0, 2, TicPieceState.Check⟩) 0 = ConnStatus.Terminated :=
  ⟨(claim_C4 false 0 0 (fun _ => exSessNearWin) [7] 7 ⟨0, 2, TicPieceState.Check⟩ 0
      (fun _ => ConnStatus.Active) (by decide) (by decide)).1 1 (by decide),
   (claim_C4 false 0 0 (fun _ => exSessNearWin) [7] 7 ⟨0, 2, TicPieceState.Check⟩ 0
      (fun _ => ConnStatus.Active) (by decide) (by decide)).2.2.1,
   (claim_C4 false 0 0 (fun _ => exSessNearWin) [7] 7 ⟨0, 2, TicPieceState.Check⟩ 0
      (fun _ => ConnStatus.Active) (by decide) (by decide)).2.2.2.2.1,
   (claim_C4 false 0 0 (fun _ => exSessNearWin) [7] 7 ⟨0, 2, TicPieceState.Check⟩ 0
      (fun _ => ConnStatus.Active) (by decide) (by decide)).2.2.2.2.2.1⟩

/-- Claim C5: session creation succeeds for every size in [3,25],
appending exactly one new session with a fresh board of that size and
the resolved name; for size < 3 or size > 25 the constructor raises,
the size error is surfaced, and the heap and registry are unchanged. -/
theorem claim_C5 (heap : Nat → GameSession) (registry : List Nat) (nid : Nat)
    (now : Rat) (genName : List Char) (size : Int) (name : Option (List Char)) :
    ((3 ≤ size ∧ size ≤ 25) →
      ((create_game heap registry nid now genName size name).2.1 = registry ++ [nid]
        ∧ (create_game heap registry nid now genName size name).2.2
            = Except.ok (resolveName genName name)
        ∧ ((create_game heap registry nid now genName size name).1 nid)
            = ⟨resolveName genName name, [], ⟨size.toNat, emptyGrid size.toNat⟩, now⟩))
    ∧ ((size < 3 ∨ 25 < size) →
      ((create_game heap registry nid now genName size name).1 = heap
        ∧ (create_game heap registry nid now genName size name).2.1 = registry
        ∧ (create_game heap registry nid now genName size name).2.2
            = Except.error sizeErrorMsg)) := by
  constructor
  · intro ⟨h3, h25⟩
    have hinit : TicTacToe.init size = .ok ⟨size.toNat, emptyGrid size.toNat⟩ := by
      unfold TicTacToe.init
      rw [if_neg (by omega)]
    simp only [create_game, hinit]
    simp [heapSet_self]
  · intro hbad
    have hinit : TicTacToe.init size = .error sizeErrorMsg := by
      unfold TicTacToe.init
      rw [if_pos (by omega)]
    simp only [create_game, hinit]
    simp

/-- Witness for C5: creating with size 3 registers the new session;
creating with size 26 errors and leaves heap and registry unchanged. -/
theorem claim_C5_witness :
    ((create_game exHeapFresh [] 5 0 ['u'] 3 none).2.1 = [] ++ [5]
      ∧ (create_game exHeapFresh [] 5 0 ['u'] 3 none).2.2
          = Except.ok (resolveName ['u'] none)
      ∧ ((create_game exHeapFresh [] 5 0 ['u'] 3 none).1 5)
          = ⟨resolveName ['u'] none, [], ⟨(3 : Int).toNat, emptyGrid (3 : Int).toNat⟩, 0⟩)
    ∧ ((create_game exHeapFresh [] 5 0 ['u'] 26 none).1 = exHeapFresh
      ∧ (create_game exHeapFresh [] 5 0 ['u'] 26 none).2.1 = []
      ∧ (create_game exHeapFresh [] 5 0 ['u'] 26 none).2.2
          = Except.error sizeErrorMsg) :=
  ⟨(claim_C5 exHeapFresh [] 5 0 ['u'] 3 none).1 (by omega),
   (claim_C5 exHeapFresh [] 5 0 ['u'] 26 none).2 (by omega)⟩

/-- Claim C6: an inbound move with an invalid placement (out-of-range or
occupied) leaves the board unchanged (without ai) and produces no error
reply — every message sent has op 0 or 1, the loop does not break and
no exception occurs when the board is non-terminal; and in ai mode the
automated opponent is invoked with the mark complementary to the one
the human just played, regardless of the placement's success. -/
theorem claim_C6 (ai : Bool) (choice : Nat) (now : Rat) (heap : Nat → GameSession)
    (registry : List Nat) (sid : Nat) (pos : Position)
    (hinv : (heap sid).board.is_coordinate_valid pos.x pos.y = false) :
    (∀ pm ∈ (gameStep ai choice now heap registry sid pos).sent,
        pm.2.op = 0 ∨ pm.2.op = 1)
    ∧ (ai = false →
        ((gameStep ai choice now heap registry sid pos).heap sid).board
          = (heap sid).board)
    ∧ (ai = true → pos.type = TicPieceState.Check →
        (gameStep ai choice now heap registry sid pos).aiInvoked
          = some TicPieceState.Circle)
    ∧ (ai = true → pos.type = TicPieceState.Circle →
        (gameStep ai choice now heap registry sid pos).aiInvoked
          = some TicPieceState.Check)
    ∧ (ai = false → (heap sid).board.check_game_status = GameState.Playing →
        (gameStep ai choice now heap registry sid pos).breaks = false
          ∧ (gameStep ai choice now heap registry sid pos).removeError = false) := by
  have hsb : ai = false → stepBoard ai choice (heap sid).board pos = (heap sid).board := by
    intro ha
    subst ha
    simp [stepBoard, place_piece_invalid _ _ _ _ hinv]
  refine ⟨?_, ?_, ?_, ?_, ?_⟩
  · intro pm hpm
    rw [gameStep_sent_eq] at hpm
    rcases List.mem_append.mp hpm with hin | hin
    · obtain ⟨p, _, rfl⟩ := List.mem_map.mp hin
      exact Or.inl rfl
    · by_cases hs : (stepBoard ai choice (heap sid).board pos).check_game_status
          = GameState.Playing
      · rw [if_pos hs] at hin
        cases hin
      · rw [if_neg hs] at hin
        obtain ⟨p, _, rfl⟩ := List.mem_map.mp hin
        exact Or.inr rfl
  · intro ha
    rw [gameStep_heap_eq, heapSet_self]
    exact hsb ha
  · intro ha ht
    rw [gameStep_aiInvoked_eq, if_pos ha, ht]
    rfl
  · intro ha ht
    rw [gameStep_aiInvoked_eq, if_pos ha, ht]
    rfl
  · intro ha hplay
    have h : (stepBoard ai choice (heap sid).board pos).check_game_status
        = GameState.Playing := by
      rw [hsb ha]
      exact hplay
    exact ⟨(gameStep_playing ai choice now heap registry sid pos h).2.1,
      (gameStep_playing ai choice now heap registry sid pos h).2.2⟩

/-- Witness for C6: the out-of-range move (-1, 0) on the fresh board is
rejected; without ai the board and loop are untouched, and with ai the
automated opponent is still invoked with Circle after the human's
Check. -/
theorem claim_C6_witness :
    (exHeapFresh 0).board.is_coordinate_valid (-1) 0 = false
    ∧ ((gameStep false 0 0 exHeapFresh [0] 0 ⟨-1, 0, TicPieceState.Check⟩).heap 0).board
        = (exHeapFresh 0).board
    ∧ (gameStep true 5 0 exHeapFresh [0] 0 ⟨-1, 0, TicPieceState.Check⟩).aiInvoked
        = some TicPieceState.Circle
    ∧ (gameStep false 0 0 exHeapFresh [0] 0 ⟨-1, 0, TicPieceState.Check⟩).breaks
        = false :=
  ⟨by decide,
   (claim_C6 false 0 0 exHeapFresh [0] 0 ⟨-1, 0, TicPieceState.Check⟩ (by decide)).2.1
     rfl,
   (claim_C6 true 5 0 exHeapFresh [0] 0 ⟨-1, 0, TicPieceState.Check⟩ (by decide)).2.2.1
     rfl rfl,
   ((claim_C6 false 0 0 exHeapFresh [0] 0 ⟨-1, 0, TicPieceState.Check⟩
      (by decide)).2.2.2.2 rfl (by decide)).1⟩

/-- Claim C7: the sweep retains exactly the sessions whose age
`now - creation` is below the 600-unit TTL and removes all others; a
find on the name of a swept session (every session of that name being
at least TTL old) returns none afterwards; a move step never changes a
session's creation timestamp (idleness is never refreshed); and every
non-terminal step's resulting registry is exactly the sweep of the
registry. -/
theorem claim_C7 (heap : Nat → GameSession) (registry : List Nat) (now : Rat) :
    (∀ sid : Nat, sid ∈ sweepGames heap now registry ↔
        (sid ∈ registry ∧ now - (heap sid).time < 600))
    ∧ (∀ name : List Char,
        (∀ sid ∈ registry, (heap sid).name = name → 600 ≤ now - (heap sid).time) →
          findGame heap (sweepGames heap now registry) name = none)
    ∧ (∀ (ai : Bool) (choice : Nat) (sid : Nat) (pos : Position),
        ((gameStep ai choice now heap registry sid pos).heap sid).time
          = (heap sid).time)
    ∧ (∀ (ai : Bool) (choice : Nat) (sid : Nat) (pos : Position),
        (gameStep ai choice now heap registry sid pos).breaks = false →
          (gameStep ai choice now heap registry sid pos).registry
            = sweepGames (gameStep ai choice now heap registry sid pos).heap now
                registry) := by
  have hmem : ∀ sid : Nat, sid ∈ sweepGames heap now registry ↔
      (sid ∈ registry ∧ now - (heap sid).time < 600) := by
    intro sid
    simp [sweepGames, List.mem_filter]
  refine ⟨hmem, ?_, ?_, ?_⟩
  · intro name hname
    rw [findGame, List.find?_eq_none]
    intro sid hsid
    obtain ⟨hreg, hage⟩ := (hmem sid).mp hsid
    simp only [beq_iff_eq]
    intro heq
    exact absurd (hname sid hreg heq) (by linarith)
  · intro ai choice sid pos
    rw [gameStep_heap_eq, heapSet_self]
  · intro ai choice sid pos hbr
    by_cases hs : (stepBoard ai choice (heap sid).board pos).check_game_status
        = GameState.Playing
    · exact (gameStep_playing ai choice now heap registry sid pos hs).1
    · rw [(gameStep_terminal ai choice now heap registry sid pos hs).1] at hbr
      cases hbr

/-- Witness for C7: a session created at time 0 is swept at time 700
and no longer found by name; a step at time 700 leaves its creation
timestamp at 0. -/
theorem claim_C7_witness :
    findGame exHeapFresh (sweepGames exHeapFresh 700 [0]) ['h'] = none
    ∧ ((gameStep false 0 700 exHeapFresh [0] 0 ⟨0, 0, TicPieceState.Check⟩).heap 0).time
        = (exHeapFresh 0).time
    ∧ (0 ∈ sweepGames exHeapFresh 100 [0] ↔
        (0 ∈ ([0] : List Nat) ∧ (100 : Rat) - (exHeapFresh 0).time < 600)) :=
  ⟨(claim_C7 exHeapFresh [0] 700).2.1 ['h'] (by
      intro sid hs hn
      have h0 : sid = 0 := by simpa using hs
      subst h0
      show (600 : Rat) ≤ 700 - (0 : Rat)
      norm_num),
   (claim_C7 exHeapFresh [0] 700).2.2.1 false 0 0 ⟨0, 0, TicPieceState.Check⟩,
   (claim_C7 exHeapFresh [0] 100).1 0⟩

/-- Counterexample to C8 as stated: removal of an absent session is not
idempotent — it raises ValueError.  `pyRemove` on the empty registry
errors, and the disconnect cleanup errors when the session was already
removed from the registry. -/
theorem claim_C8_counterexample :
    pyRemove ([] : List Nat) 0 = Except.error ()
      ∧ handleDisconnect exHeapFresh [] 0 0 = Except.error () :=
  ⟨rfl, rfl⟩

/-- Claim C8, amended: registry removal is not idempotent — removing an
absent element raises ValueError, removing a present one deletes its
first occurrence; consequently the disconnect cleanup (remove this
participant; if the participant set became empty, remove the session)
raises when the session was already removed from the registry, for
example by a terminal-outcome path. -/
theorem claim_C8 :
    (∀ (l : List Nat) (x : Nat), x ∉ l → pyRemove l x = Except.error ())
    ∧ (∀ (l : List Nat) (x : Nat), x ∈ l → pyRemove l x = Except.ok (l.erase x))
    ∧ (∀ (heap : Nat → GameSession) (registry : List Nat) (sid conn : Nat),
        (heap sid).players = [conn] → sid ∉ registry →
          handleDisconnect heap registry sid conn = Except.error ()) := by
  refine ⟨fun l x h => pyRemove_eq_error l x h, fun l x h => pyRemove_eq_ok l x h, ?_⟩
  intro heap registry sid conn hp hs
  simp [handleDisconnect, hp, pyRemove, pyRemove_eq_error registry sid hs]

/-- Witness for C8: removing the absent 5 from [1, 2] errors, removing
the present 1 deletes it, and the disconnect cleanup of the last
participant of a session absent from the registry errors. -/
theorem claim_C8_witness :
    (5 : Nat) ∉ ([1, 2] : List Nat)
      ∧ pyRemove [1, 2] 5 = Except.error ()
      ∧ pyRemove [1, 2] 1 = Except.ok [2]
      ∧ handleDisconnect exHeapFresh [3] 0 0 = Except.error () :=
  ⟨by decide, claim_C8.1 [1, 2] 5 (by decide), claim_C8.2.1 [1, 2] 1 (by decide),
   claim_C8.2.2 exHeapFresh [3] 0 0 rfl (by decide)⟩

theorem parseCells_last (c : TicPieceState) (f : Nat) (s : List Char) :
    parseCells (f + 1) (dumpCell c ++ (']' :: s)) = some ([c], ']' :: s) := by
  cases c <;> rfl

theorem parseCells_step_some (c : TicPieceState) (f : Nat) (y : List Char)
    (cs : List TicPieceState) (r3 : List Char) (h : parseCells f y = some (cs, r3)) :
    parseCells (f + 1) (dumpCell c ++ (',' :: ' ' :: y)) = some (c :: cs, r3) := by
  cases c <;> simp only [parseCells, parseCell, dumpCell, TicPieceState.value,
    List.cons_append, List.nil_append] <;> rw [h]

theorem length_le_joinComma_cells (row : List TicPieceState) :
    row.length ≤ (joinComma (row.map dumpCell)).length := by
  induction row with
  | nil => simp [joinComma]
  | cons c rest ih =>
    cases rest with
    | nil =>
      show 1 ≤ (dumpCell c).length
      cases c <;> decide
    | cons c2 r2 =>
      have h : joinComma ((c :: c2 :: r2).map dumpCell)
          = dumpCell c ++ (',' :: ' ' :: joinComma ((c2 :: r2).map dumpCell)) := rfl
      rw [h, List.length_append]
      have hc : 1 ≤ (dumpCell c).length := by cases c <;> decide
      simp only [List.length_cons] at *
      omega

theorem parseCells_dump (row : List TicPieceState) (hrow : row ≠ []) :
    ∀ fuel : Nat, row.length ≤ fuel → ∀ s : List Char,
      parseCells fuel (joinComma (row.map dumpCell) ++ (']' :: s))
        = some (row, ']' :: s) := by
  induction row with
  | nil => exact absurd rfl hrow
  | cons c rest ih =>
    intro fuel hf s
    cases fuel with
    | zero => simp at hf
    | succ f =>
      cases rest with
      | nil => exact parseCells_last c f s
      | cons c2 r2 =>
        have h : joinComma ((c :: c2 :: r2).map dumpCell) ++ (']' :: s)
            = dumpCell c ++ (',' :: ' ' :: (joinComma ((c2 :: r2).map dumpCell)
                ++ (']' :: s))) := by
          show (dumpCell c ++ (',' :: ' ' :: joinComma ((c2 :: r2).map dumpCell)))
              ++ (']' :: s) = _
          simp [List.append_assoc]
        rw [h]
        exact parseCells_step_some c f _ _ _
          (ih (by simp) f (by simp at hf ⊢; omega) s)

theorem parseRow_dump (row : List TicPieceState) (hrow : row ≠ []) (s : List Char) :
    parseRow (dumpRow row ++ s) = some (row, s) := by
  have h : dumpRow row ++ s = '[' :: (joinComma (row.map dumpCell) ++ (']' :: s)) := by
    simp [dumpRow]
  rw [h]
  have hfuel : row.length
      ≤ (joinComma (row.map dumpCell) ++ (']' :: s)).length + 1 := by
    have := length_le_joinComma_cells row
    rw [List.length_append]
    omega
  simp only [parseRow]
  rw [parseCells_dump row hrow _ hfuel s]
  rfl

theorem length_le_joinComma_rows (rows : List (List TicPieceState)) :
    rows.length ≤ (joinComma (rows.map dumpRow)).length := by
  induction rows with
  | nil => simp [joinComma]
  | cons r rest ih =>
    cases rest with
    | nil =>
      show 1 ≤ (dumpRow r).length
      simp [dumpRow]
    | cons r2 rr =>
      have h : joinComma ((r :: r2 :: rr).map dumpRow)
          = dumpRow r ++ (',' :: ' ' :: joinComma ((r2 :: rr).map dumpRow)) := rfl
      rw [h, List.length_append]
      have hc : 1 ≤ (dumpRow r).length := by simp [dumpRow]
      simp only [List.length_cons] at *
      omega

theorem parseRows_dump (rows : List (List TicPieceState)) (h1 : rows ≠ [])
    (h2 : ∀ r ∈ rows, r ≠ []) :
    ∀ fuel : Nat, rows.length ≤ fuel → ∀ s : List Char,
      parseRows fuel (joinComma (rows.map dumpRow) ++ (']' :: s))
        = some (rows, ']' :: s) := by
  induction rows with
  | nil => exact absurd rfl h1
  | cons r rest ih =>
    intro fuel hf s
    cases fuel with
    | zero => simp at hf
    | succ f =>
      cases rest with
      | nil =>
        show parseRows (f + 1) (dumpRow r ++ (']' :: s)) = some ([r], ']' :: s)
        simp only [parseRows]
        rw [parseRow_dump r (h2 r (List.mem_singleton_self r)) (']' :: s)]
        rfl
      | cons r2 rr =>
        have h : joinComma ((r :: r2 :: rr).map dumpRow) ++ (']' :: s)
            = dumpRow r ++ (',' :: ' ' :: (joinComma ((r2 :: rr).map dumpRow)
                ++ (']' :: s))) := by
          show (dumpRow r ++ (',' :: ' ' :: joinComma ((r2 :: rr).map dumpRow)))
              ++ (']' :: s) = _
          simp [List.append_assoc]
        rw [h]
        simp only [parseRows]
        rw [parseRow_dump r (h2 r (List.mem_cons_self r _)) _]
        show (match parseRows f (joinComma ((r2 :: rr).map dumpRow) ++ (']' :: s)) with
          | none => none
          | some (rows, r3) => some (r :: rows, r3)) = some (r :: r2 :: rr, ']' :: s)
        rw [ih (by simp) (fun q hq => h2 q (List.mem_cons_of_mem r hq)) f
          (by simp at hf ⊢; omega) s]

theorem decodeBoard_dump (b : List (List TicPieceState)) (h1 : b ≠ [])
    (h2 : ∀ r ∈ b, r ≠ []) : decodeBoard (dumpBoard b) = some b := by
  have h : dumpBoard b = '[' :: (joinComma (b.map dumpRow) ++ (']' :: [])) := by
    simp [dumpBoard]
  rw [h]
  have hfuel : b.length ≤ (joinComma (b.map dumpRow) ++ (']' :: [])).length + 1 := by
    have := length_le_joinComma_rows b
    rw [List.length_append]
    omega
  simp only [decodeBoard]
  rw [parseRows_dump b h1 h2 _ hfuel []]
  rfl

theorem applyOps_WF (t : TicTacToe) (ops : List BoardOp) (h : t.WF) :
    (t.applyOps ops).WF := by
  induction ops generalizing t with
  | nil => exact h
  | cons op rest ih => exact ih (t.applyOp op) (applyOp_WF t op h)

theorem applyOps_size (t : TicTacToe) (ops : List BoardOp) :
    (t.applyOps ops).size = t.size := by
  induction ops generalizing t with
  | nil => rfl
  | cons op rest ih =>
    show ((t.applyOp op).applyOps rest).size = t.size
    rw [ih (t.applyOp op), applyOp_size]

theorem init_ok (size : Int) (t0 : TicTacToe)
    (h : TicTacToe.init size = .ok t0) :
    3 ≤ size ∧ size ≤ 25 ∧ t0 = ⟨size.toNat, emptyGrid size.toNat⟩ := by
  unfold TicTacToe.init at h
  split at h
  · cases h
  · next hcond =>
    push_neg at hcond
    exact ⟨by omega, by omega, (Except.ok.inj h).symm⟩

theorem emptyGrid_WF (n : Nat) : (⟨n, emptyGrid n⟩ : TicTacToe).WF := by
  constructor
  · simp [emptyGrid]
  · intro row hrow
    rw [List.eq_of_mem_replicate hrow]
    simp

/-- Claim C9: round-trip — starting from any constructible fresh board
and applying any sequence of placement attempts, decoding the string
produced by `get_board()` (the snapshot) reproduces exactly the
resulting grid, cell for cell; `get_board` is a pure function of the
board in this embedding, so producing the snapshot does not modify it. -/
theorem claim_C9 (size : Int) (t0 : TicTacToe)
    (hinit : TicTacToe.init size = .ok t0) (ops : List BoardOp) :
    decodeBoard ((t0.applyOps ops).get_board) = some (t0.applyOps ops).board := by
  obtain ⟨h3, _, rfl⟩ := init_ok size t0 hinit
  have hWF := applyOps_WF _ ops (emptyGrid_WF size.toNat)
  have hsize := applyOps_size (⟨size.toNat, emptyGrid size.toNat⟩ : TicTacToe) ops
  have hpos : 3 ≤ size.toNat := by omega
  have hb1 : ((⟨size.toNat, emptyGrid size.toNat⟩ : TicTacToe).applyOps ops).board
      ≠ [] := by
    intro he
    have hl := hWF.1
    rw [he, hsize] at hl
    simp at hl
    omega
  have hb2 : ∀ r ∈ ((⟨size.toNat, emptyGrid size.toNat⟩ : TicTacToe).applyOps
      ops).board, r ≠ [] := by
    intro r hr he
    have hl := hWF.2 r hr
    rw [he, hsize] at hl
    simp at hl
    omega
  rw [TicTacToe.get_board]
  exact decodeBoard_dump _ hb1 hb2

/-- Witness for C9: a fresh 3×3 board with one Check placed round-trips
through the snapshot encoding. -/
theorem claim_C9_witness :
    TicTacToe.init 3 = Except.ok exBoardFresh
      ∧ decodeBoard ((exBoardFresh.applyOps
          [BoardOp.place 0 0 TicPieceState.Check]).get_board)
        = some (exBoardFresh.applyOps [BoardOp.place 0 0 TicPieceState.Check]).board :=
  ⟨rfl, claim_C9 3 exBoardFresh rfl [BoardOp.place 0 0 TicPieceState.Check]⟩
